import Mathlib

/-!
Verification of `measurement.py` (MeasuringWifi): a shallow embedding of the
scanner, connection inspector and peer counter, with theorems settling the
specification's claims.  Python strings are modelled as `List Char`; external
command invocations are modelled by their outcome (`Option` output, `none`
meaning a nonzero exit raising `CalledProcessError`); uncaught Python
exceptions are modelled with `Except PyFault`.
-/

/-- Python strings, modelled as lists of characters. -/
abbrev PyStr := List Char

/-- ASCII whitespace as recognised by Python `str.strip()` / `str.split()`. -/
def isPySpace (c : Char) : Bool :=
  c == ' ' || c == '\t' || c == '\n' || c == '\r' || c == '\x0b' || c == '\x0c'

/-- Python `s.strip()`: drop leading and trailing whitespace. -/
def pyStrip (s : PyStr) : PyStr :=
  ((s.dropWhile isPySpace).reverse.dropWhile isPySpace).reverse

/-- Python `s.split('\n')`: split on every newline, keeping empty pieces
(`"".split('\n') == ['']`). -/
def splitLines : PyStr → List PyStr
  | [] => [[]]
  | c :: cs =>
    if c = '\n' then [] :: splitLines cs
    else
      match splitLines cs with
      | [] => [[c]]
      | l :: ls => (c :: l) :: ls

/-- Helper for `pySplitWs`: accumulate the current word (reversed). -/
def wordsAux : PyStr → PyStr → List PyStr
  | [], acc => if acc = [] then [] else [acc.reverse]
  | c :: cs, acc =>
    if isPySpace c then
      if acc = [] then wordsAux cs []
      else acc.reverse :: wordsAux cs []
    else wordsAux cs (c :: acc)

/-- Python `s.split()` with no argument: split on whitespace runs, no empties. -/
def pySplitWs (s : PyStr) : List PyStr :=
  wordsAux s []

/-- Python `access_point.strip().split()` from `_get_access_points`. -/
def tokenizeRow (line : PyStr) : List PyStr :=
  pySplitWs (pyStrip line)

/-- The hard-coded target network name `'wpa.mcgill.ca'`. -/
def wpaTarget : PyStr := "wpa.mcgill.ca".toList

/-- The list comprehension
`[result for result in results if result[0]=='wpa.mcgill.ca']` together with
its surrounding `try`: `none` models the `IndexError` raised by `result[0]`
on an empty row (which discards the partial list). -/
def listCompFirstToken : List (List PyStr) → Option (List (List PyStr))
  | [] => some []
  | r :: rs =>
    match r with
    | [] => none
    | t :: _ =>
      (listCompFirstToken rs).map (fun tail =>
        if t == wpaTarget then r :: tail else tail)

/-- Python `result.strip().split('\n')[1:]`, each line tokenized: the rows the
scanner filters. -/
def accessPointRows (output : PyStr) : List (List PyStr) :=
  ((splitLines (pyStrip output)).drop 1).map tokenizeRow

/-- The function `_get_access_points`, returning the success flag together with the rows
written to the CSV file (`none`: no file written).  The argument is the scan
command's outcome: `none` models a nonzero exit (`CalledProcessError`). -/
def get_access_points_once_full (cmdOutput : Option PyStr) :
    Bool × Option (List (List PyStr)) :=
  match cmdOutput with
  | none => (false, none)
  | some output =>
    let results := accessPointRows output
    let wpa := (listCompFirstToken results).getD []
    if wpa.isEmpty then (false, none) else (true, some wpa)

/-- The return value of `_get_access_points`. -/
def get_access_points_once (cmdOutput : Option PyStr) : Bool :=
  (get_access_points_once_full cmdOutput).1

/-- Whether a tokenized row's first token equals the target network name
(an empty row has no first token and never matches). -/
def rowMatches (r : List PyStr) : Bool :=
  r.headD [] == wpaTarget

/-- The global `number_attempts = 5`: the retry bound of the scanner. -/
def number_attempts : Nat := 5

/-- The `for i in range(number_attempts)` loop of `get_access_points`:
run attempts starting at index `i` with `fuel` iterations left, returning the
final `success` flag and the number of attempts actually performed. -/
def runAttemptsFrom (attempt : Nat → Bool) (i fuel : Nat) : Bool × Nat :=
  match fuel with
  | 0 => (false, 0)
  | f + 1 =>
    if attempt i then (true, 1)
    else
      let r := runAttemptsFrom attempt (i + 1) f
      (r.1, r.2 + 1)

/-- The function `get_access_points`: retry `_get_access_points` up to `number_attempts`
times, stopping at the first success.  `outputs i` is the scan command's
outcome at the `i`-th attempt.  Also reports how many attempts ran. -/
def get_access_points (outputs : Nat → Option PyStr) : Bool × Nat :=
  runAttemptsFrom (fun i => get_access_points_once (outputs i)) 0 number_attempts

/-- Python exceptions that the script can raise uncaught. -/
inductive PyFault
  /-- Python `KeyError`, from `item['broadcast']` on an entry without that key. -/
  | keyError
  /-- Python `CalledProcessError`, from `check_output` on a nonzero exit. -/
  | calledProcessError
  /-- Python `ValueError`, from `dict(...)` fed a 1-element sequence. -/
  | valueError
deriving DecidableEq

/-- One address-family entry of `netifaces.ifaddresses(iface)[AF_INET]`:
only the optional `'broadcast'` key matters to the script. -/
structure AddrEntry where
  broadcast : Option PyStr
deriving DecidableEq

/-- A network interface as seen through `netifaces`: its name and its
`AF_INET` entry list (`none` when `AF_INET not in ifaddresses(iface)`). -/
structure Interface where
  name : PyStr
  inet : Option (List AddrEntry)
deriving DecidableEq

/-- Python `interface.startswith('en')`. -/
def startsWithEn : PyStr → Bool
  | 'e' :: 'n' :: _ => true
  | _ => false

/-- A "broadcast-address-bearing wireless interface" in the spec's words:
name starts with `'en'` and some `AF_INET` entry carries a broadcast
address. -/
def interfaceHasBroadcast (i : Interface) : Bool :=
  startsWithEn i.name &&
    (match i.inet with
     | some links => links.any (fun e => e.broadcast.isSome)
     | none => false)

/-- The inner loop `for item in links: broadcast_addresses.append(item['broadcast'])`:
a missing `'broadcast'` key raises `KeyError` (the surrounding
`except IndexError` cannot catch it, so it escapes). -/
def entriesBroadcasts (links : List AddrEntry) : Except PyFault (List PyStr) :=
  links.mapM (fun e =>
    match e.broadcast with
    | some b => Except.ok b
    | none => Except.error PyFault.keyError)

/-- The first loop of `get_users_connected`: collect the broadcast addresses
of every interface whose name starts with `'en'` and that has an `AF_INET`
entry. -/
def collectBroadcasts (ifaces : List Interface) : Except PyFault (List PyStr) :=
  ifaces.foldlM (fun acc i =>
    if startsWithEn i.name then
      match i.inet with
      | some links => do
        let bs ← entriesBroadcasts links
        Except.ok (acc ++ bs)
      | none => Except.ok acc
    else Except.ok acc) []

/-- The class `\w` of Python 2 `re` without flags: `[a-zA-Z0-9_]`. -/
def isWordChar (c : Char) : Bool :=
  c.isAlpha || c.isDigit || c == '_'

/-- Consume an exact literal from the front of `s`. -/
def consumeLit : PyStr → PyStr → Option PyStr
  | [], s => some s
  | _ :: _, [] => none
  | c :: cs, x :: xs => if x = c then consumeLit cs xs else none

/-- Consume one arbitrary character (regex `.` or `[\w\W]`). -/
def consumeAny : PyStr → Option PyStr
  | [] => none
  | _ :: xs => some xs

/-- The part of the regex after `[0-9]+`:
`. wireless . mcgill . ca [\w\W]` as a prefix of `s`. -/
def matchAfterDigits (s : PyStr) : Bool :=
  (do
    let s ← consumeAny s
    let s ← consumeLit "wireless".toList s
    let s ← consumeAny s
    let s ← consumeLit "mcgill".toList s
    let s ← consumeAny s
    let s ← consumeLit "ca".toList s
    let _ ← consumeAny s
    pure ()).isSome

/-- One or more digits (`[0-9]+`) followed by `matchAfterDigits`, with backtracking. -/
def matchDigitsThen : PyStr → Bool
  | [] => false
  | c :: cs => c.isDigit && (matchAfterDigits cs || matchDigitsThen cs)

/-- Python `re.match(r'\web[0-9]+.wireless.mcgill.ca[\w\W]', user.strip())`:
match the pattern at the start of the stripped line. -/
def arpLineMatches (line : PyStr) : Bool :=
  match pyStrip line with
  | [] => false
  | c0 :: rest =>
    isWordChar c0 &&
      (match consumeLit "eb".toList rest with
       | some s => matchDigitsThen s
       | none => false)

/-- Count the `arp -a` lines matching the hostname pattern
(`len(answer)` in `get_users_connected`). -/
def arpAnswerCount : Option PyStr → Nat
  | some out => ((splitLines (pyStrip out)).filter arpLineMatches).length
  | none => 0

/-- The environment `get_users_connected` runs in: the enumerated interfaces,
whether `ping -c 5 addr` exits zero, and the outcome of `arp -a` after
pinging `addr` (`none`: nonzero exit). -/
structure NetEnv where
  interfaces : List Interface
  pingOk : PyStr → Bool
  arpOutput : PyStr → Option PyStr

/-- The function `get_users_connected`: collect broadcast addresses, then for each one
ping it, dump the ARP table and count matching entries.  Any
`CalledProcessError` or `KeyError` escapes uncaught. -/
def get_users_connected (env : NetEnv) : Except PyFault (List (PyStr × Nat)) := do
  let addrs ← collectBroadcasts env.interfaces
  addrs.mapM (fun a => do
    if env.pingOk a then
      match env.arpOutput a with
      | some out =>
        Except.ok (a, ((splitLines (pyStrip out)).filter arpLineMatches).length)
      | none => Except.error PyFault.calledProcessError
    else Except.error PyFault.calledProcessError)

/-- Python `s.split(":", 1)`: split once at the first colon; a string without
a colon yields a one-element list. -/
def splitFirstColon (s : PyStr) : List PyStr :=
  if s.contains ':' then
    [s.takeWhile (fun c => c ≠ ':'), (s.dropWhile (fun c => c ≠ ':')).tail]
  else [s]

/-- Python `dict` update semantics: assigning key `k` overwrites an existing
binding in place, otherwise appends a new one. -/
def dictInsert {V : Type} (d : List (PyStr × V)) (k : PyStr) (v : V) :
    List (PyStr × V) :=
  if d.any (fun p => p.1 == k) then
    d.map (fun p => if p.1 == k then (p.1, v) else p)
  else d ++ [(k, v)]

/-- Build a Python dict from a sequence of key/value pairs, in order. -/
def dictOf {V : Type} (pairs : List (PyStr × V)) : List (PyStr × V) :=
  pairs.foldl (fun d p => dictInsert d p.1 p.2) []

/-- Python `dict((elem.strip().split(":",1) for elem in result.strip().split('\n')))`:
`ValueError` when some line lacks a colon (`split` yields one element). -/
def connInfoDict (out : PyStr) : Except PyFault (List (PyStr × PyStr)) :=
  (splitLines (pyStrip out)).foldlM (fun d line =>
    match splitFirstColon (pyStrip line) with
    | [k, v] => Except.ok (dictInsert d k v)
    | _ => Except.error PyFault.valueError) []

/-- The prefix of a (stripped) line before its first colon: the key the
inspector derives from that line. -/
def linePrefix (line : PyStr) : PyStr :=
  (pyStrip line).takeWhile (fun c => c ≠ ':')

/-- The remainder of a (stripped) line after its first colon: the value the
inspector derives from that line. -/
def lineSuffix (line : PyStr) : PyStr :=
  ((pyStrip line).dropWhile (fun c => c ≠ ':')).tail

/-- The key/value pairs read off the connection-info output, line by line. -/
def linePairs (out : PyStr) : List (PyStr × PyStr) :=
  (splitLines (pyStrip out)).map (fun l => (linePrefix l, lineSuffix l))

/-- JSON-serialisable values stored in the connection-info dict. -/
inductive JVal
  | s (v : PyStr)
  | users (l : List (PyStr × Nat))
deriving DecidableEq

/-- The Python return value of `get_current_connection_info`:
`False` on a failed command, `None` (implicitly) on the success path. -/
inductive PyVal
  | pyFalse
  | pyNone
deriving DecidableEq

/-- The function `get_current_connection_info`: on a nonzero exit of `airport -I` return
`False` without writing a file; otherwise parse the colon-delimited output
into a dict, add the `users_connected` key and write the JSON file.  The
result is the returned value paired with the written file's contents
(`none`: no file written); `ValueError` and peer-counter faults escape. -/
def get_current_connection_info (cmdOutput : Option PyStr) (env : NetEnv) :
    Except PyFault (PyVal × Option (List (PyStr × JVal))) :=
  match cmdOutput with
  | none => Except.ok (PyVal.pyFalse, none)
  | some out => do
    let d ← connInfoDict out
    let u ← get_users_connected env
    let d2 := dictInsert (d.map (fun p => (p.1, JVal.s p.2)))
      "users_connected".toList (JVal.users u)
    Except.ok (PyVal.pyNone, some d2)

/-- The user's affirmative answer to the retry prompt. -/
def yesStr : PyStr := "Yes".toList

/-- The `while not step_1_completed` loop of `__main__`: round `k` calls
`get_access_points` with the scan outcomes `scan k`; on failure the user's
answer `answers k` decides between restarting (`'Yes'`) and `sys.exit(-1)`.
Fuel bounds the number of rounds; `none` means the loop did not finish within
`fuel` rounds.  `some true`: loop completed; `some false`: user declined. -/
def mainScanPhase (scan : Nat → Nat → Option PyStr) (answers : Nat → PyStr) :
    Nat → Nat → Option Bool
  | _, 0 => none
  | k, f + 1 =>
    if (get_access_points (scan k)).1 then some true
    else if answers k == yesStr then mainScanPhase scan answers (k + 1) f
    else some false

/-- How the process ends. -/
inductive ProcOutcome
  | exited (code : Int)
  | faulted (f : PyFault)
deriving DecidableEq

/-- The whole `__main__` block: run the scan phase; if the user declines,
`sys.exit(-1)`; otherwise run `get_current_connection_info` (its return value
is ignored) and fall off the end of the script (exit code 0), unless an
uncaught exception terminates the process. -/
def mainProgram (scan : Nat → Nat → Option PyStr) (answers : Nat → PyStr)
    (connOutput : Option PyStr) (net : NetEnv) (fuel : Nat) :
    Option ProcOutcome :=
  match mainScanPhase scan answers 0 fuel with
  | none => none
  | some false => some (ProcOutcome.exited (-1))
  | some true =>
    match get_current_connection_info connOutput net with
    | Except.error f => some (ProcOutcome.faulted f)
    | Except.ok _ => some (ProcOutcome.exited 0)

/-! ## Lemmas about the scanner's filter comprehension -/

/-- The filter comprehension raises `IndexError` exactly when some tokenized
row is empty. -/
theorem listCompFirstToken_eq_none_iff (rows : List (List PyStr)) :
    listCompFirstToken rows = none ↔ [] ∈ rows := by
  induction rows with
  | nil => simp [listCompFirstToken]
  | cons r rs ih =>
    cases r with
    | nil => simp [listCompFirstToken]
    | cons t ts =>
      simp [listCompFirstToken, Option.map_eq_none', ih]

/-- Without empty rows, the comprehension is a plain filter on the first
token. -/
theorem listCompFirstToken_eq_filter (rows : List (List PyStr))
    (h : [] ∉ rows) :
    listCompFirstToken rows = some (rows.filter rowMatches) := by
  induction rows with
  | nil => simp [listCompFirstToken]
  | cons r rs ih =>
    cases r with
    | nil => exact absurd (List.mem_cons_self _ _) h
    | cons t ts =>
      have hrs : [] ∉ rs := fun hm => h (List.mem_cons_of_mem _ hm)
      rw [listCompFirstToken, ih hrs]
      simp only [Option.map_some']
      by_cases hm : t == wpaTarget
      · simp [List.filter_cons, rowMatches, hm]
      · simp only [hm]
        simp only [Bool.not_eq_true] at hm
        simp [List.filter_cons, rowMatches, hm]

/-! ## Claim C1: single-attempt success condition -/

/-- C1 (counterexample): the claim "success iff at least one tokenized row's
first token equals `'wpa.mcgill.ca'`" fails on the concrete scan output
`"H\n\nwpa.mcgill.ca aa:bb:cc -50 6 Y US WPA2"`: the blank data line raises
`IndexError` inside the filter, all matches are discarded and the attempt
reports failure although a matching row is present. -/
theorem C1_counterexample :
    ((accessPointRows "H\n\nwpa.mcgill.ca aa:bb:cc -50 6 Y US WPA2".toList).any
      rowMatches = true) ∧
    get_access_points_once
      (some "H\n\nwpa.mcgill.ca aa:bb:cc -50 6 Y US WPA2".toList) = false := by
  decide

/-- C1 (amended): a single scanner attempt reports success iff the command
exited zero, no tokenized row is empty (an all-whitespace line would raise
`IndexError` and discard every match), and at least one row's first token
equals `'wpa.mcgill.ca'`; output with no matching row (including empty
output) reports failure, even when the command exited zero. -/
theorem C1_scan_attempt_success_iff (c : Option PyStr) :
    get_access_points_once c = true ↔
      ∃ out, c = some out ∧ [] ∉ accessPointRows out ∧
        (accessPointRows out).any rowMatches = true := by
  cases c with
  | none =>
    simp [get_access_points_once, get_access_points_once_full]
  | some out =>
    by_cases h : [] ∈ accessPointRows out
    · have h1 := (listCompFirstToken_eq_none_iff (accessPointRows out)).mpr h
      simp only [get_access_points_once, get_access_points_once_full, h1,
        Option.getD_none, List.isEmpty_nil, if_true]
      constructor
      · intro hfalse; exact absurd hfalse (by simp)
      · rintro ⟨out', heq, hnotmem, _⟩
        cases heq
        exact absurd h hnotmem
    · have h1 := listCompFirstToken_eq_filter (accessPointRows out) h
      simp only [get_access_points_once, get_access_points_once_full, h1,
        Option.getD_some]
      constructor
      · intro htrue
        refine ⟨out, rfl, h, ?_⟩
        by_cases hfil : (accessPointRows out).filter rowMatches = []
        · simp [hfil] at htrue
        · rcases List.exists_mem_of_ne_nil _ hfil with ⟨r, hr⟩
          rcases List.mem_filter.mp hr with ⟨hmem, hp⟩
          exact List.any_eq_true.mpr ⟨r, hmem, hp⟩
      · rintro ⟨out', heq, _, hany⟩
        cases heq
        rcases List.any_eq_true.mp hany with ⟨r, hmem, hp⟩
        have hfil : r ∈ (accessPointRows out).filter rowMatches :=
          List.mem_filter.mpr ⟨hmem, hp⟩
        have hne : ((accessPointRows out).filter rowMatches).isEmpty = false :=
          List.isEmpty_eq_false_iff_exists_mem.mpr ⟨r, hfil⟩
        simp [hne]

/-- C1 (witness): on the nominal output with a header, one matching row and
one non-matching row, the amended equivalence yields success. -/
theorem C1_witness :
    get_access_points_once
      (some "HDR\nwpa.mcgill.ca aa:bb -50 6 Y US WPA2\nother.net cc:dd -40 1 Y US WPA2".toList)
      = true :=
  (C1_scan_attempt_success_iff _).mpr
    ⟨_, rfl, by decide, by decide⟩

/-! ## Claim C8: the header line is discarded -/

/-- C8: for every scan output, whatever the first line of the (whitespace-
trimmed) output is, the scanner discards exactly that line and whitespace-
tokenizes the remaining lines into rows. -/
theorem C8_header_discarded (out h : PyStr) (t : List PyStr)
    (hsplit : splitLines (pyStrip out) = h :: t) :
    accessPointRows out = t.map tokenizeRow := by
  unfold accessPointRows
  rw [hsplit]
  rfl

/-- C8 (witness): on a three-line output the header row is dropped and the
two data lines are tokenized. -/
theorem C8_witness :
    splitLines (pyStrip "  SSID BSSID RSSI\nwpa.mcgill.ca aa:bb -50\nother cc -40".toList)
      = "SSID BSSID RSSI".toList ::
        ["wpa.mcgill.ca aa:bb -50".toList, "other cc -40".toList] ∧
    accessPointRows "  SSID BSSID RSSI\nwpa.mcgill.ca aa:bb -50\nother cc -40".toList
      = [["wpa.mcgill.ca aa:bb -50".toList], ["other cc -40".toList]].map
          (fun l => tokenizeRow (l.headD [])) := by
  refine ⟨by decide, ?_⟩
  rw [C8_header_discarded _ ("SSID BSSID RSSI".toList)
    ["wpa.mcgill.ca aa:bb -50".toList, "other cc -40".toList] (by decide)]
  decide

/-! ## Claim C9: the CSV file is written only on success -/

/-- C9: a failed attempt of `_get_access_points` (nonzero exit or no match)
writes no CSV file; the file is written exactly on the success path, and then
it holds a nonempty list of rows all of whose first tokens equal
`'wpa.mcgill.ca'`. -/
theorem C9_csv_only_on_success (c : Option PyStr) :
    ((get_access_points_once_full c).1 = false →
      (get_access_points_once_full c).2 = none) ∧
    (∀ rows, (get_access_points_once_full c).2 = some rows →
      (get_access_points_once_full c).1 = true ∧ rows ≠ [] ∧
        rows.all rowMatches = true) := by
  cases c with
  | none =>
    refine ⟨fun _ => rfl, fun rows hrows => ?_⟩
    exact absurd hrows (by simp [get_access_points_once_full])
  | some out =>
    by_cases h : [] ∈ accessPointRows out
    · have h1 := (listCompFirstToken_eq_none_iff (accessPointRows out)).mpr h
      simp [get_access_points_once_full, h1]
    · have h1 := listCompFirstToken_eq_filter (accessPointRows out) h
      simp only [get_access_points_once_full, h1, Option.getD_some]
      by_cases hfil : ((accessPointRows out).filter rowMatches).isEmpty
      · simp [hfil]
      · simp only [hfil, Bool.false_eq_true, if_false]
        refine ⟨fun hf => absurd hf (by simp), fun rows hrows => ?_⟩
        have hrw : rows = (accessPointRows out).filter rowMatches :=
          (Option.some_injective _ hrows.symm)
        subst hrw
        refine ⟨by simp, ?_, ?_⟩
        · intro hnil
          rw [hnil] at hfil
          exact hfil rfl
        · exact List.all_eq_true.mpr
            (fun r hr => (List.mem_filter.mp hr).2)

/-- C9 (witness): on a successful scan the file holds exactly the nonempty
list of matching rows. -/
theorem C9_witness :
    (get_access_points_once_full
        (some "HDR\nwpa.mcgill.ca aa:bb -50\nother cc -40".toList)).1 = true ∧
    [["wpa.mcgill.ca".toList, "aa:bb".toList, "-50".toList]] ≠ [] ∧
    ([["wpa.mcgill.ca".toList, "aa:bb".toList, "-50".toList]] :
        List (List PyStr)).all rowMatches = true :=
  (C9_csv_only_on_success
    (some "HDR\nwpa.mcgill.ca aa:bb -50\nother cc -40".toList)).2
    [["wpa.mcgill.ca".toList, "aa:bb".toList, "-50".toList]] (by decide)

/-! ## Lemmas about the retry loop -/

/-- The loop performs at most `fuel` attempts. -/
theorem runAttemptsFrom_snd_le (att : Nat → Bool) (i fuel : Nat) :
    (runAttemptsFrom att i fuel).2 ≤ fuel := by
  induction fuel generalizing i with
  | zero => simp [runAttemptsFrom]
  | succ f ih =>
    rw [runAttemptsFrom]
    by_cases h : att i
    · simp [h]
    · simp only [h, Bool.false_eq_true, if_false]
      exact Nat.succ_le_succ (ih (i + 1))

/-- When every attempt fails, the loop returns failure after using all its
fuel. -/
theorem runAttemptsFrom_all_false (att : Nat → Bool) (i fuel : Nat)
    (h : ∀ j, j < fuel → att (i + j) = false) :
    runAttemptsFrom att i fuel = (false, fuel) := by
  induction fuel generalizing i with
  | zero => rfl
  | succ f ih =>
    have h0 : att i = false := by simpa using h 0 (Nat.succ_pos f)
    rw [runAttemptsFrom]
    simp only [h0, Bool.false_eq_true, if_false]
    have := ih (i + 1) (fun j hj => by
      have := h (j + 1) (Nat.succ_lt_succ hj)
      simpa [Nat.add_assoc, Nat.add_comm 1 j] using this)
    rw [this]

/-- The loop stops at the first successful attempt, after `k + 1` attempts. -/
theorem runAttemptsFrom_first_true (att : Nat → Bool) (i fuel k : Nat)
    (hk : k < fuel) (ht : att (i + k) = true)
    (hb : ∀ j, j < k → att (i + j) = false) :
    runAttemptsFrom att i fuel = (true, k + 1) := by
  induction fuel generalizing i k with
  | zero => exact absurd hk (Nat.not_lt_zero k)
  | succ f ih =>
    cases k with
    | zero =>
      rw [runAttemptsFrom]
      simp only [Nat.add_zero] at ht
      simp [ht]
    | succ k' =>
      have h0 : att i = false := by simpa using hb 0 (Nat.succ_pos k')
      rw [runAttemptsFrom]
      simp only [h0, Bool.false_eq_true, if_false]
      have hrec := ih (i + 1) k' (Nat.lt_of_succ_lt_succ hk)
        (by simpa [Nat.add_assoc, Nat.add_comm 1 k'] using ht)
        (fun j hj => by
          have := hb (j + 1) (Nat.succ_lt_succ hj)
          simpa [Nat.add_assoc, Nat.add_comm 1 j] using this)
      rw [hrec]

/-! ## Claim C4: at most five attempts, stop at first success -/

/-- C4: one call to `get_access_points` performs at most `5` attempts, stops
at the first successful attempt (performing `k + 1` attempts when attempt `k`
is the first success), and returns failure only when all `5` attempts have
failed. -/
theorem C4_retry_loop (outputs : Nat → Option PyStr) :
    ((get_access_points outputs).2 ≤ 5) ∧
    (∀ k, k < 5 → get_access_points_once (outputs k) = true →
      (∀ j, j < k → get_access_points_once (outputs j) = false) →
      get_access_points outputs = (true, k + 1)) ∧
    ((∀ i, i < 5 → get_access_points_once (outputs i) = false) →
      get_access_points outputs = (false, 5)) := by
  refine ⟨?_, ?_, ?_⟩
  · exact runAttemptsFrom_snd_le _ 0 number_attempts
  · intro k hk ht hb
    exact runAttemptsFrom_first_true _ 0 number_attempts k hk
      (by simpa using ht) (fun j hj => by simpa using hb j hj)
  · intro hall
    exact runAttemptsFrom_all_false _ 0 number_attempts
      (fun j hj => by simpa using hall j hj)

/-- C4 (witness): with the first two attempts failing (nonzero exit, then a
header-only output) and the third succeeding, the call stops after exactly 3
attempts; and with every attempt failing it returns `(false, 5)`. -/
theorem C4_witness :
    get_access_points (fun i =>
        if i = 0 then none
        else if i = 1 then some "HDR only".toList
        else some "HDR\nwpa.mcgill.ca aa:bb -50".toList) = (true, 3) ∧
    get_access_points (fun _ => none) = (false, 5) :=
  ⟨(C4_retry_loop _).2.1 2 (by decide) (by decide) (by decide),
   (C4_retry_loop _).2.2 (fun i _ => by rfl)⟩

/-! ## Claim C2: one peer-count entry per broadcast address -/

/-- The second loop of `get_users_connected`, when every ping and ARP dump
succeeds, produces one `(address, count)` entry per collected broadcast
address, in order. -/
theorem users_mapM_ok (env : NetEnv) (addrs : List PyStr)
    (hok : ∀ a ∈ addrs, env.pingOk a = true ∧ (env.arpOutput a).isSome = true) :
    (addrs.mapM (fun a => do
      if env.pingOk a then
        match env.arpOutput a with
        | some out =>
          Except.ok (a, ((splitLines (pyStrip out)).filter arpLineMatches).length)
        | none => Except.error PyFault.calledProcessError
      else Except.error PyFault.calledProcessError) :
        Except PyFault (List (PyStr × Nat)))
      = Except.ok (addrs.map (fun a => (a, arpAnswerCount (env.arpOutput a)))) := by
  induction addrs with
  | nil => rfl
  | cons a rest ih =>
    have ha := hok a (List.mem_cons_self a rest)
    rcases Option.isSome_iff_exists.mp ha.2 with ⟨out, hout⟩
    rw [List.mapM_cons]
    have hrest := ih (fun x hx => hok x (List.mem_cons_of_mem a hx))
    simp only [ha.1, if_true, hout, hrest, List.map_cons, arpAnswerCount]
    rfl

/-- C2 (counterexample): the claim "exactly one result entry per
broadcast-address-bearing wireless interface" fails when one wireless
interface has two `AF_INET` entries, each with a broadcast address: the
single interface `en0` yields two result entries. -/
theorem C2_counterexample :
    get_users_connected
      { interfaces := [⟨"en0".toList,
          some [⟨some "10.0.0.255".toList⟩, ⟨some "10.0.1.255".toList⟩]⟩],
        pingOk := fun _ => true, arpOutput := fun _ => some [] }
      = Except.ok [("10.0.0.255".toList, 0), ("10.0.1.255".toList, 0)] ∧
    (List.filter interfaceHasBroadcast [⟨"en0".toList,
        some [⟨some "10.0.0.255".toList⟩, ⟨some "10.0.1.255".toList⟩]⟩]).length
      = 1 ∧
    ([("10.0.0.255".toList, 0), ("10.0.1.255".toList, 0)] :
        List (PyStr × Nat)).length ≠ 1 :=
  ⟨rfl, rfl, by decide⟩

/-- C2 (amended): when the broadcast-address collection succeeds and every
ping and ARP dump exits zero, `get_users_connected` returns exactly one
entry `(broadcast_address, match_count)` per collected broadcast address
(one per broadcast-bearing `AF_INET` entry of each wireless interface — an
interface with several such entries contributes several result entries), in
interface-enumeration order, even when the match count is 0. -/
theorem C2_one_entry_per_broadcast (env : NetEnv) (addrs : List PyStr)
    (hc : collectBroadcasts env.interfaces = Except.ok addrs)
    (hok : ∀ a ∈ addrs, env.pingOk a = true ∧ (env.arpOutput a).isSome = true) :
    get_users_connected env =
      Except.ok (addrs.map (fun a => (a, arpAnswerCount (env.arpOutput a)))) := by
  unfold get_users_connected
  rw [hc]
  show (addrs.mapM _ : Except PyFault _) = _
  exact users_mapM_ok env addrs hok

/-- C2 (witness): two interfaces, one broadcast address each, ARP output with
no matching line for the first address and one matching line for the second:
two entries, in order, the first with count 0. -/
theorem C2_witness :
    get_users_connected
      { interfaces := [⟨"en0".toList, some [⟨some "10.0.0.255".toList⟩]⟩,
          ⟨"en1".toList, some [⟨some "10.1.0.255".toList⟩]⟩],
        pingOk := fun _ => true,
        arpOutput := fun a =>
          if a = "10.0.0.255".toList then some "? (10.0.0.3) at 0:0 on en0".toList
          else some "web3.wireless.mcgill.ca (10.1.0.3) at 0:0 on en1".toList }
      = Except.ok [("10.0.0.255".toList, 0), ("10.1.0.255".toList, 1)] :=
  (C2_one_entry_per_broadcast
      { interfaces := [⟨"en0".toList, some [⟨some "10.0.0.255".toList⟩]⟩,
          ⟨"en1".toList, some [⟨some "10.1.0.255".toList⟩]⟩],
        pingOk := fun _ => true,
        arpOutput := fun a =>
          if a = "10.0.0.255".toList then some "? (10.0.0.3) at 0:0 on en0".toList
          else some "web3.wireless.mcgill.ca (10.1.0.3) at 0:0 on en1".toList }
      ["10.0.0.255".toList, "10.1.0.255".toList] rfl
      (fun a ha => by
        fin_cases ha <;> exact ⟨rfl, rfl⟩)).trans (by rfl)

section DictLemmas

variable {V : Type}

theorem mem_dropWhile_of_not {p : Char → Bool} {a : Char} :
    ∀ {l : PyStr}, a ∈ l → p a = false → a ∈ l.dropWhile p := by
  intro l
  induction l with
  | nil => intro h _; exact absurd h (List.not_mem_nil a)
  | cons c cs ih =>
    intro hmem hpa
    rw [List.dropWhile_cons]
    by_cases hc : p c
    · simp only [hc, if_true]
      rcases List.mem_cons.mp hmem with rfl | hm
      · rw [hc] at hpa; exact absurd hpa (by simp)
      · exact ih hm hpa
    · simp only [hc]
      simpa using hmem

theorem mem_of_mem_pyStrip {a : Char} {s : PyStr} (h : a ∈ pyStrip s) :
    a ∈ s := by
  unfold pyStrip at h
  rw [List.mem_reverse] at h
  have h1 := (List.dropWhile_sublist _).subset h
  rw [List.mem_reverse] at h1
  exact (List.dropWhile_sublist _).subset h1

theorem mem_pyStrip_of_mem {a : Char} {s : PyStr} (h : a ∈ s)
    (hns : isPySpace a = false) : a ∈ pyStrip s := by
  unfold pyStrip
  rw [List.mem_reverse]
  apply mem_dropWhile_of_not _ hns
  rw [List.mem_reverse]
  exact mem_dropWhile_of_not h hns

theorem contains_pyStrip (s : PyStr) :
    (pyStrip s).contains ':' = s.contains ':' := by
  rw [Bool.eq_iff_iff, List.elem_iff, List.elem_iff]
  exact ⟨fun h => mem_of_mem_pyStrip h,
    fun h => mem_pyStrip_of_mem h (by decide)⟩


theorem lookup_map_overwrite {V : Type} (k : PyStr) (v : V) (q : PyStr) :
    ∀ d : List (PyStr × V),
      (d.map (fun p => if p.1 == k then (p.1, v) else p)).lookup q =
        if q = k then (d.lookup k).map (fun _ => v) else d.lookup q := by
  intro d
  induction d with
  | nil => by_cases h : q = k <;> simp [h]
  | cons p rest ih =>
    obtain ⟨a, b⟩ := p
    simp only [List.map_cons]
    by_cases hak : a == k
    · have hak' : a = k := by simpa using hak
      subst hak'
      simp only [hak, if_true]
      by_cases hqa : q = a
      · subst hqa
        simp [List.lookup_cons]
      · have hqa' : (q == a) = false := by simpa using hqa
        simp only [List.lookup_cons, hqa']
        rw [ih]
        simp [hqa]
    · have hak' : a ≠ k := by simpa using hak
      simp only [hak, Bool.false_eq_true, if_false]
      by_cases hqa : q = a
      · subst hqa
        have hqk : q ≠ k := hak'
        have hka : (k == q) = false := by simp [Ne.symm hqk]
        simp [List.lookup_cons, hqk]
      · have hqa' : (q == a) = false := by simpa using hqa
        simp only [List.lookup_cons, hqa']
        rw [ih]
        by_cases hqk : q = k
        · subst hqk
          have : (q == a) = false := by simpa using hqa
          simp [List.lookup_cons, this]
        · simp [hqk]

theorem lookup_append_single {V : Type} (k : PyStr) (v : V) (q : PyStr) :
    ∀ d : List (PyStr × V),
      (d ++ [(k, v)]).lookup q =
        match d.lookup q with
        | some b => some b
        | none => if q == k then some v else none := by
  intro d
  induction d with
  | nil =>
    cases hqk : q == k <;> simp [List.lookup_cons, hqk]
  | cons p rest ih =>
    obtain ⟨a, b⟩ := p
    cases hqa : q == a with
    | true => simp [List.lookup_cons, hqa]
    | false =>
      simp only [List.cons_append, List.lookup_cons, hqa]
      exact ih

theorem lookup_eq_none_iff {V : Type} (q : PyStr) :
    ∀ d : List (PyStr × V),
      d.lookup q = none ↔ q ∉ d.map Prod.fst := by
  intro d
  induction d with
  | nil => simp
  | cons p rest ih =>
    obtain ⟨a, b⟩ := p
    cases hqa : q == a with
    | true =>
      have hq : q = a := by simpa using hqa
      simp only [List.lookup_cons, hqa, List.map_cons, List.mem_cons]
      constructor
      · intro hsome; exact absurd hsome (by simp)
      · intro hnot; exact absurd (Or.inl hq) hnot
    | false =>
      have hne : q ≠ a := by simpa using hqa
      simp only [List.lookup_cons, hqa, List.map_cons, List.mem_cons]
      rw [ih]
      constructor
      · intro hnot hc
        rcases hc with hc | hc
        · exact hne hc
        · exact hnot hc
      · intro hnot hc
        exact hnot (Or.inr hc)

theorem dict_hasKey_iff {V : Type} (k : PyStr) (d : List (PyStr × V)) :
    d.any (fun p => p.1 == k) = true ↔ k ∈ d.map Prod.fst := by
  rw [List.any_eq_true]
  constructor
  · rintro ⟨p, hp, he⟩
    have : p.1 = k := by simpa using he
    exact this ▸ List.mem_map_of_mem Prod.fst hp
  · intro hm
    rcases List.mem_map.mp hm with ⟨p, hp, he⟩
    exact ⟨p, hp, by simp [he]⟩

theorem dictInsert_lookup {V : Type} (d : List (PyStr × V)) (k : PyStr)
    (v : V) (q : PyStr) :
    (dictInsert d k v).lookup q = if q = k then some v else d.lookup q := by
  unfold dictInsert
  by_cases h : d.any (fun p => p.1 == k)
  · rw [if_pos h, lookup_map_overwrite]
    by_cases hqk : q = k
    · subst hqk
      have hk : q ∈ d.map Prod.fst := (dict_hasKey_iff q d).mp h
      cases hb : d.lookup q with
      | none => exact absurd ((lookup_eq_none_iff q d).mp hb) (not_not_intro hk)
      | some b => simp [hb]
    · simp [hqk]
  · rw [if_neg h, lookup_append_single]
    have hk : k ∉ d.map Prod.fst := fun hm => h ((dict_hasKey_iff k d).mpr hm)
    have hnone : d.lookup k = none := (lookup_eq_none_iff k d).mpr hk
    by_cases hqk : q = k
    · subst hqk
      simp [hnone]
    · have hqk' : (q == k) = false := by simpa using hqk
      simp only [hqk, if_false]
      cases hl : d.lookup q with
      | none => simp [hqk']
      | some b => rfl

theorem map_overwrite_keys {V : Type} (k : PyStr) (v : V) :
    ∀ d : List (PyStr × V),
      (d.map (fun p => if p.1 == k then (p.1, v) else p)).map Prod.fst =
        d.map Prod.fst := by
  intro d
  induction d with
  | nil => rfl
  | cons p rest ih =>
    obtain ⟨a, b⟩ := p
    cases hak : a == k with
    | true => simp only [List.map_cons, hak, if_true, ih]
    | false =>
      simp only [List.map_cons, hak, Bool.false_eq_true, if_false, ih]

theorem dictInsert_keys_mem {V : Type} (d : List (PyStr × V)) (k : PyStr)
    (v : V) (q : PyStr) :
    (q ∈ (dictInsert d k v).map Prod.fst ↔ q ∈ d.map Prod.fst ∨ q = k) := by
  unfold dictInsert
  by_cases h : d.any (fun p => p.1 == k)
  · rw [if_pos h, map_overwrite_keys]
    have hk : k ∈ d.map Prod.fst := (dict_hasKey_iff k d).mp h
    constructor
    · exact Or.inl
    · rintro (hq | rfl)
      · exact hq
      · exact hk
  · rw [if_neg h]
    rw [List.map_append, List.mem_append]
    simp only [List.map_cons, List.map_nil, List.mem_singleton]

theorem dictInsert_keys_nodup {V : Type} (d : List (PyStr × V)) (k : PyStr)
    (v : V) (h : (d.map Prod.fst).Nodup) :
    ((dictInsert d k v).map Prod.fst).Nodup := by
  unfold dictInsert
  by_cases ha : d.any (fun p => p.1 == k)
  · rw [if_pos ha, map_overwrite_keys]
    exact h
  · rw [if_neg ha]
    have hk : k ∉ d.map Prod.fst := fun hm => ha ((dict_hasKey_iff k d).mpr hm)
    rw [List.map_append]
    exact List.Nodup.append h (List.nodup_singleton k)
      (fun a hma hmb => by
        have : a = k := by simpa using hmb
        subst this
        exact hk hma)

theorem dictFold_lookup {V : Type} :
    ∀ (pairs : List (PyStr × V)) (d : List (PyStr × V)) (q : PyStr),
      ((pairs.foldl (fun d p => dictInsert d p.1 p.2) d).lookup q) =
        match pairs.reverse.lookup q with
        | some v => some v
        | none => d.lookup q := by
  intro pairs
  induction pairs with
  | nil => intro d q; rfl
  | cons p rest ih =>
    intro d q
    rw [List.foldl_cons, ih, List.reverse_cons, lookup_append_single]
    cases hr : rest.reverse.lookup q with
    | some b => rfl
    | none =>
      rw [dictInsert_lookup]
      by_cases hq : q = p.1
      · have hq' : (q == p.1) = true := by simpa using hq
        rw [if_pos hq, hq']
        rfl
      · have hq' : (q == p.1) = false := by simpa using hq
        rw [if_neg hq, hq']
        rfl

theorem dictFold_keys_mem {V : Type} :
    ∀ (pairs : List (PyStr × V)) (d : List (PyStr × V)) (q : PyStr),
      (q ∈ ((pairs.foldl (fun d p => dictInsert d p.1 p.2) d).map Prod.fst) ↔
        q ∈ d.map Prod.fst ∨ q ∈ pairs.map Prod.fst) := by
  intro pairs
  induction pairs with
  | nil =>
    intro d q
    rw [List.foldl_nil]
    exact ⟨Or.inl, fun h => h.elim id
      (fun hq => absurd hq (List.not_mem_nil q))⟩
  | cons p rest ih =>
    intro d q
    rw [List.foldl_cons, ih, dictInsert_keys_mem]
    simp only [List.map_cons, List.mem_cons]
    tauto

theorem dictFold_keys_nodup {V : Type} :
    ∀ (pairs : List (PyStr × V)) (d : List (PyStr × V)),
      (d.map Prod.fst).Nodup →
      ((pairs.foldl (fun d p => dictInsert d p.1 p.2) d).map Prod.fst).Nodup := by
  intro pairs
  induction pairs with
  | nil => intro d h; exact h
  | cons p rest ih =>
    intro d h
    rw [List.foldl_cons]
    exact ih _ (dictInsert_keys_nodup d p.1 p.2 h)

theorem dictOf_lookup {V : Type} (pairs : List (PyStr × V)) (q : PyStr) :
    (dictOf pairs).lookup q = pairs.reverse.lookup q := by
  unfold dictOf
  rw [dictFold_lookup]
  cases hr : pairs.reverse.lookup q <;> rfl

theorem dictOf_keys_mem {V : Type} (pairs : List (PyStr × V)) (q : PyStr) :
    q ∈ (dictOf pairs).map Prod.fst ↔ q ∈ pairs.map Prod.fst := by
  unfold dictOf
  rw [dictFold_keys_mem]
  exact ⟨fun h => h.elim
      (fun hq => absurd hq (by rw [List.map_nil] at hq ⊢; exact List.not_mem_nil q))
      id,
    Or.inr⟩

theorem dictOf_keys_nodup {V : Type} (pairs : List (PyStr × V)) :
    ((dictOf pairs).map Prod.fst).Nodup :=
  dictFold_keys_nodup pairs [] List.nodup_nil

theorem splitFirstColon_of_contains (l : PyStr)
    (h : l.contains ':' = true) :
    splitFirstColon (pyStrip l) = [linePrefix l, lineSuffix l] := by
  unfold splitFirstColon linePrefix lineSuffix
  rw [if_pos]
  rw [contains_pyStrip]
  exact h

theorem connInfoDict_foldlM_ok :
    ∀ (lines : List PyStr) (d : List (PyStr × PyStr)),
      (∀ l ∈ lines, l.contains ':' = true) →
      (lines.foldlM (fun d line =>
        match splitFirstColon (pyStrip line) with
        | [k, v] => Except.ok (dictInsert d k v)
        | _ => Except.error PyFault.valueError) d : Except PyFault _)
      = Except.ok (lines.foldl
          (fun d l => dictInsert d (linePrefix l) (lineSuffix l)) d) := by
  intro lines
  induction lines with
  | nil => intro d _; rfl
  | cons l rest ih =>
    intro d h
    rw [List.foldlM_cons, splitFirstColon_of_contains l (h l (List.mem_cons_self l rest))]
    show (rest.foldlM _ (dictInsert d (linePrefix l) (lineSuffix l)) :
      Except PyFault _) = _
    rw [ih _ (fun x hx => h x (List.mem_cons_of_mem l hx))]
    rfl

theorem connInfoDict_ok (out : PyStr)
    (h : ∀ l ∈ splitLines (pyStrip out), l.contains ':' = true) :
    connInfoDict out = Except.ok (dictOf (linePairs out)) := by
  unfold connInfoDict dictOf linePairs
  rw [connInfoDict_foldlM_ok _ [] h, List.foldl_map]

/-- C3: for every connection-info output whose every line contains a colon,
the parse succeeds and the resulting mapping has exactly one key per
distinct prefix before the first colon across all lines (keys are nodup and
coincide with the line prefixes), and looking up any key yields the value of
the last line with that prefix (later lines overwrite earlier ones). -/
theorem C3_conn_info_mapping (out : PyStr)
    (hcolon : ∀ l ∈ splitLines (pyStrip out), l.contains ':' = true) :
    connInfoDict out = Except.ok (dictOf (linePairs out)) ∧
    ((dictOf (linePairs out)).map Prod.fst).Nodup ∧
    (∀ k, k ∈ (dictOf (linePairs out)).map Prod.fst ↔
      k ∈ (splitLines (pyStrip out)).map linePrefix) ∧
    (∀ k, (dictOf (linePairs out)).lookup k =
      (linePairs out).reverse.lookup k) := by
  refine ⟨connInfoDict_ok out hcolon, dictOf_keys_nodup _, ?_,
    fun k => dictOf_lookup _ k⟩
  intro k
  rw [dictOf_keys_mem]
  unfold linePairs
  rw [List.map_map]
  exact Iff.rfl

/-- C3 (witness): on an output with a duplicated `state` key the parse
succeeds and the lookup for `state` is the last line's value. -/
theorem C3_witness :
    connInfoDict "state:running\nlastTxRate:130\nstate:again".toList
      = Except.ok
          (dictOf (linePairs "state:running\nlastTxRate:130\nstate:again".toList)) ∧
    (dictOf (linePairs "state:running\nlastTxRate:130\nstate:again".toList)).lookup
        "state".toList
      = (linePairs "state:running\nlastTxRate:130\nstate:again".toList).reverse.lookup
          "state".toList :=
  ⟨(C3_conn_info_mapping "state:running\nlastTxRate:130\nstate:again".toList
      (by decide)).1,
   (C3_conn_info_mapping "state:running\nlastTxRate:130\nstate:again".toList
      (by decide)).2.2.2 "state".toList⟩

/-! ## Claim C5: silent failure of the connection inspector -/

/-- C5: when the connection-info command exits nonzero,
`get_current_connection_info` returns `False` without raising and without
writing any output file; and the top-level caller ignores this return value:
whenever the scan phase completes, the process exits 0 regardless, so the
failure is never surfaced. -/
theorem C5_conn_failure_silent :
    (∀ env : NetEnv, get_current_connection_info none env
        = Except.ok (PyVal.pyFalse, none)) ∧
    (∀ (scan : Nat → Nat → Option PyStr) (answers : Nat → PyStr)
        (net : NetEnv) (fuel : Nat),
      mainScanPhase scan answers 0 fuel = some true →
      mainProgram scan answers none net fuel = some (ProcOutcome.exited 0)) := by
  refine ⟨fun env => rfl, ?_⟩
  intro scan answers net fuel h
  unfold mainProgram
  rw [h]
  rfl

/-- C5 (witness): a run whose scan succeeds at once and whose connection-info
command fails still exits 0. -/
theorem C5_witness :
    mainProgram (fun _ _ => some "H\nwpa.mcgill.ca x".toList)
      (fun _ => "No".toList) none ⟨[], fun _ => true, fun _ => some []⟩ 1
      = some (ProcOutcome.exited 0) :=
  C5_conn_failure_silent.2 _ _ _ 1 rfl

/-! ## Lemmas and claims about the interactive retry loop of `__main__` -/

/-- Rounds that fail and are answered `'Yes'` are skipped: the loop at round
`j` with `k` such rounds ahead behaves as the loop at round `j + k`. -/
theorem mainScanPhase_shift (scan : Nat → Nat → Option PyStr)
    (answers : Nat → PyStr) :
    ∀ (k j f : Nat),
      (∀ i, i < k → (get_access_points (scan (j + i))).1 = false ∧
        answers (j + i) = yesStr) →
      mainScanPhase scan answers j (k + f) =
        mainScanPhase scan answers (j + k) f := by
  intro k
  induction k with
  | zero => intro j f _; rw [Nat.zero_add, Nat.add_zero]
  | succ n ih =>
    intro j f h
    have h0 := h 0 (Nat.succ_pos n)
    rw [Nat.add_zero] at h0
    have hfuel : n + 1 + f = (n + f) + 1 := by omega
    rw [hfuel, mainScanPhase, h0.1]
    simp only [Bool.false_eq_true, if_false]
    rw [if_pos (by simp [h0.2])]
    have := ih (j + 1) f (fun i hi => by
      have := h (i + 1) (Nat.succ_lt_succ hi)
      constructor
      · have h1 : j + 1 + i = j + (i + 1) := by omega
        rw [h1]; exact this.1
      · have h1 : j + 1 + i = j + (i + 1) := by omega
        rw [h1]; exact this.2)
    rw [this]
    have h1 : j + 1 + n = j + (n + 1) := by omega
    rw [h1]

/-- C7: if the retrying scanner fails at a reached round and the user's
answer is not `'Yes'`, the process exits with code `-1`; if the answer is
`'Yes'`, the whole retry sequence restarts (one more loop round); after a
round with a successful scan, step 2 runs and the program exits 0
implicitly. -/
theorem C7_retry_prompt_exit_codes :
    (∀ (scan : Nat → Nat → Option PyStr) (answers : Nat → PyStr)
        (connOutput : Option PyStr) (net : NetEnv) (k : Nat),
      (∀ j, j < k → (get_access_points (scan j)).1 = false ∧
        answers j = yesStr) →
      (get_access_points (scan k)).1 = false →
      answers k ≠ yesStr →
      mainProgram scan answers connOutput net (k + 1)
        = some (ProcOutcome.exited (-1))) ∧
    (∀ (scan : Nat → Nat → Option PyStr) (answers : Nat → PyStr) (k f : Nat),
      (get_access_points (scan k)).1 = false →
      answers k = yesStr →
      mainScanPhase scan answers k (f + 1)
        = mainScanPhase scan answers (k + 1) f) ∧
    (∀ (scan : Nat → Nat → Option PyStr) (answers : Nat → PyStr)
        (connOutput : Option PyStr) (net : NetEnv) (k : Nat)
        (r : PyVal × Option (List (PyStr × JVal))),
      (∀ j, j < k → (get_access_points (scan j)).1 = false ∧
        answers j = yesStr) →
      (get_access_points (scan k)).1 = true →
      get_current_connection_info connOutput net = Except.ok r →
      mainProgram scan answers connOutput net (k + 1)
        = some (ProcOutcome.exited 0)) := by
  refine ⟨?_, ?_, ?_⟩
  · intro scan answers connOutput net k hb hf hne
    unfold mainProgram
    have hsh := mainScanPhase_shift scan answers k 0 1
      (fun i hi => by simpa using hb i hi)
    rw [Nat.zero_add] at hsh
    rw [hsh, mainScanPhase, hf]
    simp only [Bool.false_eq_true, if_false]
    rw [if_neg (by simpa using hne)]
  · intro scan answers k f hf hyes
    rw [mainScanPhase, hf]
    simp only [Bool.false_eq_true, if_false]
    rw [if_pos (by simp [hyes])]
  · intro scan answers connOutput net k r hb ht hconn
    unfold mainProgram
    have hsh := mainScanPhase_shift scan answers k 0 1
      (fun i hi => by simpa using hb i hi)
    rw [Nat.zero_add] at hsh
    rw [hsh, mainScanPhase, ht]
    simp only [if_true]
    rw [hconn]

/-- C7 (witness): one failed round answered `'Yes'` then a failed round
answered `'No'` exits `-1`; an immediately successful round exits 0. -/
theorem C7_witness :
    mainProgram (fun _ _ => none)
      (fun j => if j = 0 then yesStr else "No".toList) none
      ⟨[], fun _ => true, fun _ => some []⟩ 2
      = some (ProcOutcome.exited (-1)) ∧
    mainProgram (fun _ _ => some "H\nwpa.mcgill.ca x".toList)
      (fun _ => "No".toList) none ⟨[], fun _ => true, fun _ => some []⟩ 1
      = some (ProcOutcome.exited 0) :=
  ⟨C7_retry_prompt_exit_codes.1 _ _ _ _ 1
      (fun j hj => by
        have hj0 : j = 0 := by omega
        subst hj0
        exact ⟨rfl, rfl⟩)
      rfl (by decide),
   C7_retry_prompt_exit_codes.2.2 _ _ _ _ 0 (PyVal.pyFalse, none)
      (fun j hj => absurd hj (Nat.not_lt_zero j)) rfl rfl⟩

/-! ## Lemmas on faults of the connection inspector and peer counter -/

/-- A line without a colon splits into a single piece. -/
theorem splitFirstColon_of_not_contains (l : PyStr)
    (h : l.contains ':' = false) :
    splitFirstColon (pyStrip l) = [pyStrip l] := by
  unfold splitFirstColon
  rw [if_neg]
  rw [contains_pyStrip, h]
  simp

/-- If any line lacks a colon, building the dict raises `ValueError`. -/
theorem connInfoDict_foldlM_error :
    ∀ (lines : List PyStr) (d : List (PyStr × PyStr)),
      (∃ l ∈ lines, l.contains ':' = false) →
      (lines.foldlM (fun d line =>
        match splitFirstColon (pyStrip line) with
        | [k, v] => Except.ok (dictInsert d k v)
        | _ => Except.error PyFault.valueError) d : Except PyFault _)
      = Except.error PyFault.valueError := by
  intro lines
  induction lines with
  | nil =>
    intro d h
    rcases h with ⟨l, hl, _⟩
    exact absurd hl (List.not_mem_nil l)
  | cons l rest ih =>
    intro d h
    rw [List.foldlM_cons]
    cases hc : l.contains ':' with
    | false =>
      rw [splitFirstColon_of_not_contains l hc]
      rfl
    | true =>
      rw [splitFirstColon_of_contains l hc]
      show (rest.foldlM _ (dictInsert d (linePrefix l) (lineSuffix l)) :
        Except PyFault _) = _
      apply ih
      rcases h with ⟨x, hx, hxc⟩
      rcases List.mem_cons.mp hx with rfl | hxr
      · rw [hc] at hxc; exact absurd hxc (by simp)
      · exact ⟨x, hxr, hxc⟩

/-- Unfolding of `get_current_connection_info` on a zero-exit command. -/
theorem conn_some_eq (out : PyStr) (env : NetEnv) :
    get_current_connection_info (some out) env =
      (connInfoDict out >>= fun d =>
        get_users_connected env >>= fun u =>
          Except.ok (PyVal.pyNone, some (dictInsert
            (d.map (fun p => (p.1, JVal.s p.2)))
            "users_connected".toList (JVal.users u)))) := rfl

/-- A colon-less line makes `get_current_connection_info` raise
`ValueError`. -/
theorem conn_error_valueError (out : PyStr) (env : NetEnv)
    (h : ∃ l ∈ splitLines (pyStrip out), l.contains ':' = false) :
    get_current_connection_info (some out) env
      = Except.error PyFault.valueError := by
  rw [conn_some_eq]
  show (connInfoDict out >>= _) = _
  unfold connInfoDict
  rw [connInfoDict_foldlM_error _ [] h]
  rfl

/-- An entry without a `'broadcast'` key raises `KeyError`. -/
theorem entriesBroadcasts_error (links : List AddrEntry) (e : AddrEntry)
    (he : e ∈ links) (hb : e.broadcast = none) :
    entriesBroadcasts links = Except.error PyFault.keyError := by
  induction links with
  | nil => exact absurd he (List.not_mem_nil e)
  | cons x rest ih =>
    unfold entriesBroadcasts
    rw [List.mapM_cons]
    cases hx : x.broadcast with
    | none => rfl
    | some b =>
      rcases List.mem_cons.mp he with rfl | hr
      · rw [hx] at hb; exact absurd hb (by simp)
      · have hrec := ih hr
        unfold entriesBroadcasts at hrec
        show ((rest.mapM (fun e =>
            match e.broadcast with
            | some b => Except.ok b
            | none => Except.error PyFault.keyError) :
              Except PyFault (List PyStr)) >>= fun bs =>
                pure (b :: bs)) = _
        rw [hrec]
        rfl

/-- The only fault the broadcast-collection inner loop raises is
`KeyError`. -/
theorem entriesBroadcasts_error_only :
    ∀ (links : List AddrEntry) (f : PyFault),
      entriesBroadcasts links = Except.error f → f = PyFault.keyError := by
  intro links
  induction links with
  | nil =>
    intro f h
    have h' : (Except.ok [] : Except PyFault (List PyStr)) = Except.error f := h
    exact absurd h' (by simp)
  | cons x rest ih =>
    intro f h
    unfold entriesBroadcasts at h
    rw [List.mapM_cons] at h
    cases hx : x.broadcast with
    | none =>
      rw [hx] at h
      have h' : (Except.error PyFault.keyError :
        Except PyFault (List PyStr)) = Except.error f := h
      cases h'
      rfl
    | some b =>
      rw [hx] at h
      cases hrec : (rest.mapM (fun e =>
          match e.broadcast with
          | some b => Except.ok b
          | none => Except.error PyFault.keyError) :
            Except PyFault (List PyStr)) with
      | ok bs =>
        rw [hrec] at h
        have h' : (Except.ok (b :: bs) :
          Except PyFault (List PyStr)) = Except.error f := h
        exact absurd h' (by simp)
      | error f' =>
        rw [hrec] at h
        have h' : (Except.error f' :
          Except PyFault (List PyStr)) = Except.error f := h
        cases h'
        exact ih f hrec

/-- One step of the interface fold, on a selected interface without an
`AF_INET` entry. -/
theorem collectStep_none (acc : List PyStr) (b : Bool) :
    (if b = true then
      match (none : Option (List AddrEntry)) with
      | some links => do
        let bs ← entriesBroadcasts links
        Except.ok (acc ++ bs)
      | none => Except.ok acc
    else Except.ok acc : Except PyFault (List PyStr))
    = Except.ok acc := by
  cases b <;> rfl

/-- One step of the interface fold, on a selected interface with an
`AF_INET` entry list. -/
theorem collectStep_some (acc : List PyStr) (links : List AddrEntry)
    (b : Bool) (hb : b = true) :
    (if b = true then
      match some links with
      | some links => do
        let bs ← entriesBroadcasts links
        Except.ok (acc ++ bs)
      | none => Except.ok acc
    else Except.ok acc : Except PyFault (List PyStr))
    = (entriesBroadcasts links >>= fun bs => Except.ok (acc ++ bs)) := by
  subst hb
  rfl

/-- One step of the interface fold, on a non-wireless interface. -/
theorem collectStep_skip (acc : List PyStr) (o : Option (List AddrEntry))
    (b : Bool) (hb : b = false) :
    (if b = true then
      match o with
      | some links => do
        let bs ← entriesBroadcasts links
        Except.ok (acc ++ bs)
      | none => Except.ok acc
    else Except.ok acc : Except PyFault (List PyStr))
    = Except.ok acc := by
  subst hb
  rfl

/-- A selected interface with an entry lacking a broadcast address makes
the whole interface fold raise `KeyError`. -/
theorem collectBroadcasts_foldlM_error :
    ∀ (ifaces : List Interface) (acc : List PyStr) (i : Interface)
      (links : List AddrEntry) (e : AddrEntry),
      i ∈ ifaces → startsWithEn i.name = true → i.inet = some links →
      e ∈ links → e.broadcast = none →
      (ifaces.foldlM (fun acc i =>
        if startsWithEn i.name then
          match i.inet with
          | some links => do
            let bs ← entriesBroadcasts links
            Except.ok (acc ++ bs)
          | none => Except.ok acc
        else Except.ok acc) acc : Except PyFault (List PyStr))
        = Except.error PyFault.keyError := by
  intro ifaces
  induction ifaces with
  | nil =>
    intro acc i links e hmem _ _ _ _
    exact absurd hmem (List.not_mem_nil i)
  | cons x rest ih =>
    intro acc i links e hmem hname hinet he hb
    rw [List.foldlM_cons]
    by_cases hx : startsWithEn x.name = true
    · cases hxi : x.inet with
      | none =>
        rw [collectStep_none acc (startsWithEn x.name)]
        rcases List.mem_cons.mp hmem with rfl | hr
        · rw [hinet] at hxi; exact absurd hxi (by simp)
        · exact ih acc i links e hr hname hinet he hb
      | some links2 =>
        rw [collectStep_some acc links2 (startsWithEn x.name) hx]
        cases hre : entriesBroadcasts links2 with
        | error f =>
          have hf := entriesBroadcasts_error_only links2 f hre
          subst hf
          rfl
        | ok bs =>
          rcases List.mem_cons.mp hmem with rfl | hr
          · rw [hinet] at hxi
            injection hxi with hl
            subst hl
            rw [entriesBroadcasts_error links e he hb] at hre
            exact absurd hre (by simp)
          · exact ih (acc ++ bs) i links e hr hname hinet he hb
    · have hx2 : startsWithEn x.name = false := by
        cases hv : startsWithEn x.name
        · rfl
        · exact absurd hv hx
      rw [collectStep_skip acc x.inet (startsWithEn x.name) hx2]
      rcases List.mem_cons.mp hmem with rfl | hr
      · exact absurd hname hx
      · exact ih acc i links e hr hname hinet he hb

/-- The function `get_users_connected` raises `KeyError` when a selected interface has
an address entry without a broadcast address. -/
theorem users_error_keyError (env : NetEnv) (i : Interface)
    (links : List AddrEntry) (e : AddrEntry)
    (hmem : i ∈ env.interfaces) (hname : startsWithEn i.name = true)
    (hinet : i.inet = some links) (he : e ∈ links)
    (hb : e.broadcast = none) :
    get_users_connected env = Except.error PyFault.keyError := by
  unfold get_users_connected collectBroadcasts
  rw [collectBroadcasts_foldlM_error env.interfaces [] i links e
    hmem hname hinet he hb]
  rfl

/-- A fault of the peer counter escapes through
`get_current_connection_info` when the dict parse succeeded. -/
theorem conn_propagates_users_fault (out : PyStr) (env : NetEnv)
    (d : List (PyStr × PyStr)) (f : PyFault)
    (hd : connInfoDict out = Except.ok d)
    (hu : get_users_connected env = Except.error f) :
    get_current_connection_info (some out) env = Except.error f := by
  rw [conn_some_eq, hd]
  show (get_users_connected env >>= _) = _
  rw [hu]
  rfl

/-- C6: a connection-info line lacking a colon, or a selected wireless
interface's address entry lacking a broadcast address, raises an uncaught
fault (`ValueError` resp. `KeyError`, the latter because `except IndexError`
cannot catch it), and any such fault reaching `__main__` terminates the
process. -/
theorem C6_uncaught_faults :
    (∀ (out : PyStr) (env : NetEnv),
      (∃ l ∈ splitLines (pyStrip out), l.contains ':' = false) →
      get_current_connection_info (some out) env
        = Except.error PyFault.valueError) ∧
    (∀ (env : NetEnv) (i : Interface) (links : List AddrEntry)
        (e : AddrEntry),
      i ∈ env.interfaces → startsWithEn i.name = true →
      i.inet = some links → e ∈ links → e.broadcast = none →
      get_users_connected env = Except.error PyFault.keyError) ∧
    (∀ (scan : Nat → Nat → Option PyStr) (answers : Nat → PyStr)
        (out : PyStr) (net : NetEnv) (fuel : Nat) (f : PyFault),
      mainScanPhase scan answers 0 fuel = some true →
      get_current_connection_info (some out) net = Except.error f →
      mainProgram scan answers (some out) net fuel
        = some (ProcOutcome.faulted f)) := by
  refine ⟨conn_error_valueError, users_error_keyError, ?_⟩
  intro scan answers out net fuel f hscan hconn
  unfold mainProgram
  rw [hscan, hconn]

/-- C6 (witness): a colon-less output faults with `ValueError`; an `en0`
entry without a broadcast faults with `KeyError`; the `ValueError` reaches
the process level. -/
theorem C6_witness :
    get_current_connection_info (some "no colon here".toList)
      ⟨[], fun _ => true, fun _ => some []⟩
      = Except.error PyFault.valueError ∧
    get_users_connected
      ⟨[⟨"en0".toList, some [⟨none⟩]⟩], fun _ => true, fun _ => some []⟩
      = Except.error PyFault.keyError ∧
    mainProgram (fun _ _ => some "H\nwpa.mcgill.ca x".toList)
      (fun _ => "No".toList) (some "no colon here".toList)
      ⟨[], fun _ => true, fun _ => some []⟩ 1
      = some (ProcOutcome.faulted PyFault.valueError) :=
  ⟨C6_uncaught_faults.1 "no colon here".toList
      ⟨[], fun _ => true, fun _ => some []⟩ (by decide),
   C6_uncaught_faults.2.1
      ⟨[⟨"en0".toList, some [⟨none⟩]⟩], fun _ => true, fun _ => some []⟩
      ⟨"en0".toList, some [⟨none⟩]⟩ [⟨none⟩] ⟨none⟩
      (by simp) rfl rfl (by simp) rfl,
   C6_uncaught_faults.2.2 _ _ _ _ 1 PyFault.valueError rfl
     (C6_uncaught_faults.1 "no colon here".toList
       ⟨[], fun _ => true, fun _ => some []⟩ (by decide))⟩

/-- A nonzero exit of `ping` or `arp -a` for any collected address makes
the ping loop raise `CalledProcessError`. -/
theorem users_mapM_error (env : NetEnv) :
    ∀ (addrs : List PyStr) (a : PyStr), a ∈ addrs →
      (env.pingOk a = false ∨ env.arpOutput a = none) →
      (addrs.mapM (fun a => do
        if env.pingOk a then
          match env.arpOutput a with
          | some out =>
            Except.ok (a, ((splitLines (pyStrip out)).filter arpLineMatches).length)
          | none => Except.error PyFault.calledProcessError
        else Except.error PyFault.calledProcessError) :
          Except PyFault (List (PyStr × Nat)))
      = Except.error PyFault.calledProcessError := by
  intro addrs
  induction addrs with
  | nil =>
    intro a ha _
    exact absurd ha (List.not_mem_nil a)
  | cons x rest ih =>
    intro a ha hf
    rw [List.mapM_cons]
    by_cases hp : env.pingOk x = true
    · rw [if_pos hp]
      cases hout : env.arpOutput x with
      | none => rfl
      | some out =>
        rcases List.mem_cons.mp ha with rfl | hr
        · rcases hf with hf | hf
          · rw [hp] at hf; exact absurd hf (by simp)
          · rw [hout] at hf; exact absurd hf (by simp)
        · rw [ih a hr hf]
          rfl
    · have hp2 : env.pingOk x = false := by
        cases hv : env.pingOk x
        · rfl
        · exact absurd hv hp
      rw [if_neg hp]
      rfl

/-! ## Claim C10: ping/arp failures are uncaught -/

/-- C10: if the broadcast ping or the ARP dump exits nonzero for any
collected broadcast address, `get_users_connected` raises an uncaught
`CalledProcessError` (nothing catches or retries it). -/
theorem C10_ping_arp_failure_uncaught (env : NetEnv) (addrs : List PyStr)
    (a : PyStr) (hc : collectBroadcasts env.interfaces = Except.ok addrs)
    (ha : a ∈ addrs)
    (hf : env.pingOk a = false ∨ env.arpOutput a = none) :
    get_users_connected env = Except.error PyFault.calledProcessError := by
  unfold get_users_connected
  rw [hc]
  show (addrs.mapM _ : Except PyFault _) = _
  exact users_mapM_error env addrs a ha hf

/-- C10 (witness): a failing ping, and a failing ARP dump, each raise
`CalledProcessError`. -/
theorem C10_witness :
    get_users_connected
      ⟨[⟨"en0".toList, some [⟨some "10.0.0.255".toList⟩]⟩],
        fun _ => false, fun _ => some []⟩
      = Except.error PyFault.calledProcessError ∧
    get_users_connected
      ⟨[⟨"en0".toList, some [⟨some "10.0.0.255".toList⟩]⟩],
        fun _ => true, fun _ => none⟩
      = Except.error PyFault.calledProcessError :=
  ⟨C10_ping_arp_failure_uncaught
      ⟨[⟨"en0".toList, some [⟨some "10.0.0.255".toList⟩]⟩],
        fun _ => false, fun _ => some []⟩
      ["10.0.0.255".toList] "10.0.0.255".toList rfl (by simp)
      (Or.inl rfl),
   C10_ping_arp_failure_uncaught
      ⟨[⟨"en0".toList, some [⟨some "10.0.0.255".toList⟩]⟩],
        fun _ => true, fun _ => none⟩
      ["10.0.0.255".toList] "10.0.0.255".toList rfl (by simp)
      (Or.inr rfl)⟩
